import Mathlib

/-!
Verification of the citation-spike detection engine of the
`drifting-hypernova` repository (src/opencitations.py and src/main.py),
as a shallow embedding in Lean 4.

Modelling conventions:
* Python `datetime.date` values become the structure `PyDate`; Python's
  lexicographic date comparison becomes `PyDate.ble`.
* Machine-unbounded Python integers become `Nat`/`Int`.
* The network fetch performed by `_fetch_citations` is modelled as an
  oracle `fetch : String → Option (List Citation)`; `none` models a
  `requests.RequestException` or a JSON-decode `ValueError` (both are
  caught and turned into `None` by the source).  Per the feed interface,
  a successfully decoded response is a list of event objects whose
  optional `creation` field is a string.
* `datetime.now()` is a parameter: `get_citation_increase` receives the
  (year, month) observed by its own `now` call, exactly as the source
  reads the clock inside the function body.
* Strings are manipulated through their character lists (`String.data`).
-/

/-- Embedding of `datetime.date`: a plain year/month/day triple.
Python compares dates lexicographically on (year, month, day). -/
structure PyDate where
  year : Nat
  month : Nat
  day : Nat
deriving DecidableEq, Repr

/-- Gregorian leap-year test, as used by `datetime.date`. -/
def isLeap (y : Nat) : Bool :=
  (y % 4 == 0 && y % 100 != 0) || y % 400 == 0

/-- Number of days in month `m` of year `y` (the `datetime` calendar). -/
def daysInMonth (y m : Nat) : Nat :=
  if m = 2 then (if isLeap y then 29 else 28)
  else if m = 4 ∨ m = 6 ∨ m = 9 ∨ m = 11 then 30
  else 31

/-- The validity check `datetime.date.__new__` performs: year in
`[MINYEAR, MAXYEAR] = [1, 9999]`, month in `[1, 12]`, day in
`[1, daysInMonth]`.  An invalid triple raises `ValueError` in Python. -/
def validDate (y m d : Nat) : Bool :=
  1 ≤ y && y ≤ 9999 && 1 ≤ m && m ≤ 12 && 1 ≤ d && d ≤ daysInMonth y m

/-- `date(y, m, d)` as a fallible constructor: `none` models the
`ValueError` raised on an out-of-range component. -/
def mkDate (y m d : Nat) : Option PyDate :=
  if validDate y m d then some ⟨y, m, d⟩ else none

/-- Python's `date.__le__`: lexicographic comparison of (year, month, day). -/
def PyDate.ble (a b : PyDate) : Bool :=
  a.year < b.year ||
    (a.year == b.year &&
      (a.month < b.month || (a.month == b.month && a.day ≤ b.day)))

theorem PyDate.ble_iff (a b : PyDate) :
    a.ble b = true ↔
      (a.year < b.year ∨
        (a.year = b.year ∧
          (a.month < b.month ∨ (a.month = b.month ∧ a.day ≤ b.day)))) := by
  simp [PyDate.ble]

theorem PyDate.ble_trans (a b c : PyDate) (h1 : a.ble b = true)
    (h2 : b.ble c = true) : a.ble c = true := by
  rw [PyDate.ble_iff] at h1 h2 ⊢
  omega

theorem PyDate.ble_total (a b : PyDate) (h : a.ble b = false) :
    b.ble a = true := by
  rw [PyDate.ble_iff]
  rw [← Bool.not_eq_true, PyDate.ble_iff] at h
  omega

/-- The whitespace characters stripped by Python's `str.strip()`
(ASCII subset; exotic Unicode spaces are outside the modelled inputs). -/
def isPySpace (c : Char) : Bool :=
  c == ' ' || c == '\t' || c == '\n' || c == '\r' ||
    c == Char.ofNat 11 || c == Char.ofNat 12

/-- `str.strip()`: remove leading and trailing whitespace. -/
def pyStrip (l : List Char) : List Char :=
  ((l.dropWhile isPySpace).reverse.dropWhile isPySpace).reverse

/-- `str.split("-")`: split on every dash, keeping empty segments.
Like Python, the result is never empty (`"".split("-") == [""]`). -/
def splitDash : List Char → List (List Char)
  | [] => [[]]
  | c :: cs =>
    if c = '-' then [] :: splitDash cs
    else
      match splitDash cs with
      | [] => [[c]]
      | s :: rest => (c :: s) :: rest

/-- Value of a digit string (used to give `int()` its meaning). -/
def digitsVal (l : List Char) : Nat :=
  l.foldl (fun a c => a * 10 + (c.toNat - 48)) 0

/-- Python's `int(s)` on a dash-free segment produced by
`str.split("-")`: surrounding whitespace is allowed, then an optional
leading `'+'`, then a nonempty run of decimal digits; anything else
raises `ValueError`, modelled as `none`.  (A `'-'` sign can never occur
in a segment of a dash-split; `int()`'s underscore grouping is not
modelled — such inputs simply classify as unparseable here.) -/
def pyInt (s : List Char) : Option Nat :=
  let t := pyStrip s
  let t2 := if t.head? = some '+' then t.tail else t
  if t2 ≠ [] ∧ t2.all Char.isDigit then some (digitsVal t2) else none

/-- Embedding of `_parse_creation_date` (src/opencitations.py:107-139)
on the character list of the input string: empty input → `None`;
otherwise strip, split on `-`; 3 segments → `date(y, m, d)`,
2 segments → `date(y, m, 1)`, 1 segment → `date(y, 1, 1)`, any other
count → `None`; a failing `int()` or `date()` (caught `ValueError`)
→ `None`. -/
def parseCreationChars (creation : List Char) : Option PyDate :=
  if creation = [] then none
  else
    match splitDash (pyStrip creation) with
    | [a, b, c] =>
      (pyInt a).bind fun y =>
        (pyInt b).bind fun m =>
          (pyInt c).bind fun d => mkDate y m d
    | [a, b] =>
      (pyInt a).bind fun y =>
        (pyInt b).bind fun m => mkDate y m 1
    | [a] => (pyInt a).bind fun y => mkDate y 1 1
    | _ => none

/-- `_parse_creation_date` on a `String`. -/
def parseCreationDate (creation : String) : Option PyDate :=
  parseCreationChars creation.data

example : parseCreationDate "2024-03-15" = some ⟨2024, 3, 15⟩ := by decide
example : parseCreationDate "2024-03" = some ⟨2024, 3, 1⟩ := by decide
example : parseCreationDate "2024" = some ⟨2024, 1, 1⟩ := by decide
example : parseCreationDate "2024-13-01" = none := by decide
example : parseCreationDate "2024-03-15-9" = none := by decide
example : parseCreationDate "" = none := by decide
example : parseCreationDate " 2024-02-29 " = some ⟨2024, 2, 29⟩ := by decide
example : parseCreationDate "2023-02-29" = none := by decide
example : parseCreationDate "20x4" = none := by decide

/-- Last day of the month preceding month `m` of year `y`:
`date(y, m, 1) - relativedelta(days=1)` (src/opencitations.py:46).
Meaningful for `1 ≤ m ≤ 12` and `2 ≤ y` (the range where the Python
expression does not raise). -/
def endOfLastMonth (y m : Nat) : PyDate :=
  if m = 1 then ⟨y - 1, 12, 31⟩ else ⟨y, m - 1, daysInMonth y (m - 1)⟩

/-- `date(end_of_last_month.year, end_of_last_month.month, 1) -
relativedelta(days=1)` (src/opencitations.py:48): last day of the month
before the one containing `endOfLastMonth`. -/
def endOfPrevMonth (y m : Nat) : PyDate :=
  let e := endOfLastMonth y m
  if e.month = 1 then ⟨e.year - 1, 12, 31⟩
  else ⟨e.year, e.month - 1, daysInMonth e.year (e.month - 1)⟩

theorem endOfPrevMonth_ble_endOfLastMonth (y m : Nat) (hy : 2 ≤ y)
    (hm1 : 1 ≤ m) (hm2 : m ≤ 12) :
    (endOfPrevMonth y m).ble (endOfLastMonth y m) = true := by
  rw [PyDate.ble_iff]
  interval_cases m <;> (simp [endOfPrevMonth, endOfLastMonth]; try omega)

/-- `(now - relativedelta(months=1))` projected to its (year, month)
pair, as used by `_get_detected_month` (src/main.py:43-47); the
`strftime("%Y-%m")` output depends only on this pair. -/
def detectedMonthPair (y m : Nat) : Nat × Nat :=
  if m = 1 then (y - 1, 12) else (y, m - 1)

/-- A citation event as delivered by the feed (the only field the core
reads): the optional `creation` date string.  `none` models an absent
key (`citation.get("creation")` returning `None`). -/
structure Citation where
  creation : Option String
deriving DecidableEq, Repr

/-- The counting loop of `get_citation_increase`
(src/opencitations.py:50-67), returning
`(end_count, start_count, no_creation_count)`: events with a missing or
empty `creation` are tallied as missing; events whose `creation` fails
to parse are skipped; otherwise the parsed date is compared against the
two boundaries. -/
def countCitations (citations : List Citation) (eL eP : PyDate) :
    Nat × Nat × Nat :=
  citations.foldl
    (fun r c =>
      match c.creation with
      | none => (r.1, r.2.1, r.2.2 + 1)
      | some s =>
        if s = "" then (r.1, r.2.1, r.2.2 + 1)
        else
          match parseCreationDate s with
          | none => r
          | some d =>
            ((if d.ble eL then r.1 + 1 else r.1),
             (if d.ble eP then r.2.1 + 1 else r.2.1), r.2.2))
    (0, 0, 0)

/-- The successfully parsed event dates of a fetched list: events with
a present, nonempty `creation` string that `_parse_creation_date`
accepts. -/
def parsedDates (citations : List Citation) : List PyDate :=
  citations.filterMap fun c =>
    match c.creation with
    | none => none
    | some s => if s = "" then none else parseCreationDate s

/-- Whether a citation record counts as missing its `creation` field
(`if not creation` in the loop body): key absent or empty string. -/
def missingCreation (c : Citation) : Bool :=
  match c.creation with
  | none => true
  | some s => s == ""

/-- Embedding of `get_citation_increase` (src/opencitations.py:20-75).
`fetch` is the `_fetch_citations` oracle (`none` = caught network or
JSON error); `nowY, nowM` are the year and month of the `datetime.now()`
value the function reads internally.  The second component logs the
DOIs for which a network fetch was issued: the empty-DOI guard returns
before any fetch. -/
def get_citation_increase (fetch : String → Option (List Citation))
    (doi : String) (nowY nowM : Nat) : Option Int × List String :=
  if doi = "" then (none, [])
  else
    match fetch doi with
    | none => (none, [doi])
    | some citations =>
      let eL := endOfLastMonth nowY nowM
      let eP := endOfPrevMonth nowY nowM
      let c := countCitations citations eL eP
      (some ((c.1 : Int) - (c.2.1 : Int)), [doi])


theorem countCitations_foldl (eL eP : PyDate) :
    ∀ (citations : List Citation) (init : Nat × Nat × Nat),
      citations.foldl
        (fun r c =>
          match c.creation with
          | none => (r.1, r.2.1, r.2.2 + 1)
          | some s =>
            if s = "" then (r.1, r.2.1, r.2.2 + 1)
            else
              match parseCreationDate s with
              | none => r
              | some d =>
                ((if d.ble eL then r.1 + 1 else r.1),
                 (if d.ble eP then r.2.1 + 1 else r.2.1), r.2.2)) init =
      (init.1 + (parsedDates citations).countP (fun d => d.ble eL),
       init.2.1 + (parsedDates citations).countP (fun d => d.ble eP),
       init.2.2 + citations.countP missingCreation) := by
  intro citations
  induction citations with
  | nil => intro init; simp [parsedDates, missingCreation]
  | cons c cs ih =>
    intro init
    rw [List.foldl_cons, ih]
    rcases c with ⟨creation⟩
    match creation with
    | none =>
      simp [parsedDates, missingCreation, List.countP_cons]
      omega
    | some s =>
      by_cases hs : s = ""
      · subst hs
        simp [parsedDates, missingCreation, List.countP_cons]
        omega
      · match hp : parseCreationDate s with
        | none =>
          simp [parsedDates, missingCreation, List.countP_cons, hs, hp]
        | some d =>
          simp only [parsedDates, missingCreation, List.filterMap_cons,
            List.countP_cons, hs, hp, if_neg hs]
          by_cases h1 : d.ble eL = true <;> by_cases h2 : d.ble eP = true <;>
            simp [h1, h2, hs, List.countP_cons, Prod.ext_iff] <;> and_intros <;> omega

/-- The counts produced by the loop are exactly the filtered counts over
the successfully parsed event dates (plus the missing-creation tally). -/
theorem countCitations_eq (citations : List Citation) (eL eP : PyDate) :
    countCitations citations eL eP =
      ((parsedDates citations).countP (fun d => d.ble eL),
       (parsedDates citations).countP (fun d => d.ble eP),
       citations.countP missingCreation) := by
  have h := countCitations_foldl eL eP citations (0, 0, 0)
  simpa [countCitations] using h

/-- Counting dates up to `L` splits into those up to `P` and those in
the half-open interval `(P, L]`, whenever `P ≤ L`. -/
theorem countP_ble_split (P L : PyDate) (h : P.ble L = true)
    (l : List PyDate) :
    l.countP (fun d => d.ble L) =
      l.countP (fun d => d.ble P) +
        l.countP (fun d => !d.ble P && d.ble L) := by
  induction l with
  | nil => simp
  | cons d ds ih =>
    by_cases h1 : d.ble P = true
    · have h2 : d.ble L = true := PyDate.ble_trans d P L h1 h
      simp [List.countP_cons, h1, h2, ih]
      omega
    · by_cases h2 : d.ble L = true <;>
        (simp [List.countP_cons, h1, h2, ih]; try omega)

/-- A work as produced by the metadata fetch (src/main.py step 4): the
fields `run` reads.  `doi` is `article.get("doi")`; `abstract` is
`article.get("abstract")`. -/
structure Article where
  pmid : String
  doi : Option String
  title : String
  journal : String
  published_date : String
  abstract : Option String
deriving DecidableEq, Repr

/-- The argument tuple of an `insert_alert` call (src/main.py:149-157). -/
structure AlertInsert where
  pmid : String
  doi : String
  title : String
  journal : String
  published_date : String
  citation_increase : Int
  detected_month : String
deriving DecidableEq, Repr

/-- The statistics counters of the detect loop (src/main.py:114-119, 144). -/
structure DetectStats where
  noDoi : Nat
  apiFail : Nat
  incZero : Nat
  incPos : Nat
  spikes : Nat
deriving DecidableEq, Repr

/-- Observable outcome of the detect loop: counters, the `insert_alert`
calls in iteration order, and the DOIs passed to
`get_citation_increase` (in order). -/
structure DetectResult where
  stats : DetectStats
  inserts : List AlertInsert
  requested : List String
deriving DecidableEq, Repr

/-- The record inserted for a qualifying article (src/main.py:149-157). -/
def mkAlert (a : Article) (s : String) (inc : Int) (dm : String) :
    AlertInsert :=
  ⟨a.pmid, s, a.title, a.journal, a.published_date, inc, dm⟩

/-- One iteration of the detect loop (src/main.py:123-157) for one
article.  `citeInc` is the imported `get_citation_increase` collaborator
(`none` = API failure).  A falsy DOI (`if not doi`) is counted as
`noDoi` and skipped before any fetch; an available increase is tallied
(`== 0` / `> 0`) and, strictly above the threshold, recorded via
`insert_alert`. -/
def evalArticle (citeInc : String → Option Int) (t : Int) (dm : String)
    (a : Article) : DetectResult :=
  match a.doi with
  | none => ⟨⟨1, 0, 0, 0, 0⟩, [], []⟩
  | some s =>
    if s = "" then ⟨⟨1, 0, 0, 0, 0⟩, [], []⟩
    else
      match citeInc s with
      | none => ⟨⟨0, 1, 0, 0, 0⟩, [], [s]⟩
      | some inc =>
        ⟨⟨0, 0, (if inc = 0 then 1 else 0), (if 0 < inc then 1 else 0),
            (if t < inc then 1 else 0)⟩,
         (if t < inc then [mkAlert a s inc dm] else []), [s]⟩

/-- Pointwise combination of two loop outcomes (counter sums, ordered
concatenation of inserts and fetch requests). -/
def combineResult (r1 r2 : DetectResult) : DetectResult :=
  ⟨⟨r1.stats.noDoi + r2.stats.noDoi, r1.stats.apiFail + r2.stats.apiFail,
    r1.stats.incZero + r2.stats.incZero, r1.stats.incPos + r2.stats.incPos,
    r1.stats.spikes + r2.stats.spikes⟩,
   r1.inserts ++ r2.inserts, r1.requested ++ r2.requested⟩

/-- The detect loop over the whole article list, in iteration order. -/
def detectRun (citeInc : String → Option Int) (t : Int) (dm : String) :
    List Article → DetectResult
  | [] => ⟨⟨0, 0, 0, 0, 0⟩, [], []⟩
  | a :: rest =>
    combineResult (evalArticle citeInc t dm a) (detectRun citeInc t dm rest)

theorem mem_detectRun_inserts (citeInc : String → Option Int) (t : Int)
    (dm : String) (arts : List Article) (r : AlertInsert) :
    r ∈ (detectRun citeInc t dm arts).inserts ↔
      ∃ a ∈ arts, r ∈ (evalArticle citeInc t dm a).inserts := by
  induction arts with
  | nil => simp [detectRun]
  | cons a rest ih => simp [detectRun, combineResult, ih]

theorem evalArticle_insert_gt (citeInc : String → Option Int) (t : Int)
    (dm : String) (a : Article) (r : AlertInsert)
    (h : r ∈ (evalArticle citeInc t dm a).inserts) :
    t < r.citation_increase := by
  rcases hd : a.doi with _ | s
  · simp [evalArticle, hd] at h
  · by_cases hs : s = ""
    · simp [evalArticle, hd, hs] at h
    · rcases hc : citeInc s with _ | inc
      · simp [evalArticle, hd, hs, hc] at h
      · by_cases ht : t < inc
        · simp [evalArticle, hd, hs, hc, ht] at h
          subst h
          simpa [mkAlert]
        · simp [evalArticle, hd, hs, hc, ht] at h

theorem detectRun_noDoi (citeInc : String → Option Int) (t : Int)
    (dm : String) (arts : List Article) :
    (detectRun citeInc t dm arts).stats.noDoi =
      arts.countP (fun a => decide (a.doi = none ∨ a.doi = some "")) := by
  induction arts with
  | nil => simp [detectRun]
  | cons a rest ih =>
    rw [detectRun, List.countP_cons]
    rcases hd : a.doi with _ | s
    · simp [combineResult, evalArticle, hd, ih]
      omega
    · by_cases hs : s = ""
      · simp [combineResult, evalArticle, hd, hs, ih]
        omega
      · rcases hc : citeInc s with _ | inc <;>
          simp [combineResult, evalArticle, hd, hs, hc, ih]

theorem detectRun_requested (citeInc : String → Option Int) (t : Int)
    (dm : String) (arts : List Article) :
    (detectRun citeInc t dm arts).requested =
      arts.filterMap (fun a =>
        match a.doi with
        | none => none
        | some s => if s = "" then none else some s) := by
  induction arts with
  | nil => simp [detectRun]
  | cons a rest ih =>
    rw [detectRun, List.filterMap_cons]
    rcases hd : a.doi with _ | s
    · simp [combineResult, evalArticle, hd, ih]
    · by_cases hs : s = ""
      · simp [combineResult, evalArticle, hd, hs, ih]
      · rcases hc : citeInc s with _ | inc <;>
          simp [combineResult, evalArticle, hd, hs, hc, ih]

/-- A persisted alert row as returned by `get_pending_alerts`
(src/main.py:173): the fields the notify phase reads or writes. -/
structure AlertRecord where
  id : Nat
  pmid : String
  doi : String
  title : String
  journal : String
  published_date : String
  citation_increase : Int
  detected_month : String
  notified : Bool
  summary : Option String
deriving DecidableEq, Repr

/-- The linear scan of src/main.py:185-189: the abstract of the first
article whose pmid matches (which itself may be absent). -/
def findAbstract (articles : List Article) (pmid : String) :
    Option String :=
  match articles.find? (fun art => art.pmid == pmid) with
  | none => none
  | some art => art.abstract

/-- The fixed placeholder used when no abstract exists (src/main.py:194). -/
def placeholderSummary : String := "（アブストラクトが存在しないため要約できません）"

/-- The summarization step 8 (src/main.py:181-197): every pending record
gets its `summary` field set, from the Gemini collaborator when a
(truthy) abstract was found and from the placeholder otherwise.  Runs in
both normal and dry-run mode. -/
def enrich (articles : List Article) (summarize : String → String)
    (pending : List AlertRecord) : List AlertRecord :=
  pending.map fun r =>
    { r with
      summary := some
        (match findAbstract articles r.pmid with
         | none => placeholderSummary
         | some ab =>
           if ab = "" then placeholderSummary else summarize ab) }

/-- Effect of `mark_as_notified(ids)` on the stored rows: flip
`notified` for exactly the listed ids. -/
def markAsNotified (ids : List Nat) (db : List AlertRecord) :
    List AlertRecord :=
  db.map fun r => if ids.contains r.id then { r with notified := true } else r

/-- Apply the (possibly absent) `mark_as_notified` call of a run to the
stored rows. -/
def applyMark (db : List AlertRecord) (marked : Option (List Nat)) :
    List AlertRecord :=
  match marked with
  | none => db
  | some ids => markAsNotified ids db

/-- Observable outcome of one `run` invocation: the detect-phase
inserts, the enriched pending batch, whether `send_alert_email` was
called, and the id list passed to `mark_as_notified` (if it was called
at all). -/
structure RunOutcome where
  inserts : List AlertInsert
  enriched : List AlertRecord
  emailCalled : Bool
  markedIds : Option (List Nat)
deriving DecidableEq, Repr

/-- Embedding of the tail of `run` (src/main.py:107-230): detect phase,
pending-empty early return, summarization, then dispatch.  `pending` is
what `get_pending_alerts(detected_month)` returned; `sendEmail` is the
dispatcher collaborator returning its batch success flag.  In dry-run
mode the dispatch and the `mark_as_notified` call are both skipped; on
dispatch failure `run` returns before step 11, so `mark_as_notified` is
never reached. -/
def runModel (dryRun : Bool) (citeInc : String → Option Int) (t : Int)
    (dm : String) (articles : List Article) (pending : List AlertRecord)
    (summarize : String → String) (sendEmail : List AlertRecord → Bool) :
    RunOutcome :=
  let det := detectRun citeInc t dm articles
  if pending.isEmpty then ⟨det.inserts, [], false, none⟩
  else
    let enriched := enrich articles summarize pending
    if dryRun then ⟨det.inserts, enriched, false, none⟩
    else if sendEmail enriched then
      ⟨det.inserts, enriched, true, some (enriched.map (fun r => r.id))⟩
    else ⟨det.inserts, enriched, true, none⟩

/-- Observable outcome of the detect loop with the per-call clock made
explicit: the inserts, the boundary pairs actually computed by
`get_citation_increase` (one per successful fetch, in call order), and
the index of the next clock reading. -/
structure ClockedResult where
  inserts : List AlertInsert
  boundaries : List (PyDate × PyDate)
  nextCall : Nat
deriving DecidableEq, Repr

/-- The detect loop (src/main.py:123-157) with the clock threaded
explicitly: the i-th call of `get_citation_increase` reads
`datetime.now()` as `clock i` (the source reads the wall clock inside
`get_citation_increase`, src/opencitations.py:44, so each call gets its
own reading).  Boundary pairs are computed only after a successful
fetch, exactly as in src/opencitations.py:40-48. -/
def detectClocked (fetch : String → Option (List Citation))
    (clock : Nat → Nat × Nat) (t : Int) (dm : String) :
    List Article → Nat → ClockedResult
  | [], k => ⟨[], [], k⟩
  | a :: rest, k =>
    match a.doi with
    | none => detectClocked fetch clock t dm rest k
    | some s =>
      if s = "" then detectClocked fetch clock t dm rest k
      else
        let y := (clock k).1
        let m := (clock k).2
        let res := (get_citation_increase fetch s y m).1
        let bps : List (PyDate × PyDate) :=
          match fetch s with
          | none => []
          | some _ => [(endOfLastMonth y m, endOfPrevMonth y m)]
        let r := detectClocked fetch clock t dm rest (k + 1)
        match res with
        | none => ⟨r.inserts, bps ++ r.boundaries, r.nextCall⟩
        | some inc =>
          ⟨(if t < inc then [mkAlert a s inc dm] else []) ++ r.inserts,
           bps ++ r.boundaries, r.nextCall⟩

/-- Python's digit characters (callers always pass a value below 10). -/
def digitChar (n : Nat) : Char :=
  match n with
  | 0 => '0'
  | 1 => '1'
  | 2 => '2'
  | 3 => '3'
  | 4 => '4'
  | 5 => '5'
  | 6 => '6'
  | 7 => '7'
  | 8 => '8'
  | _ => '9'

/-- Two-digit zero-padded decimal rendering (str(date) month/day part). -/
def pad2 (n : Nat) : List Char :=
  [digitChar (n / 10 % 10), digitChar (n % 10)]

/-- Four-digit zero-padded decimal rendering (str(date) year part; for
`datetime.date` the year is at most 9999). -/
def pad4 (n : Nat) : List Char :=
  [digitChar (n / 1000 % 10), digitChar (n / 100 % 10),
   digitChar (n / 10 % 10), digitChar (n % 10)]

/-- `str(d)` / `d.isoformat()` for a `datetime.date`: the zero-padded
`YYYY-MM-DD` rendering. -/
def formatDateChars (d : PyDate) : List Char :=
  pad4 d.year ++ '-' :: (pad2 d.month ++ '-' :: pad2 d.day)

/-- `str(d)` as a `String`. -/
def formatDateISO (d : PyDate) : String :=
  ⟨formatDateChars d⟩

example : formatDateISO ⟨2024, 3, 5⟩ = "2024-03-05" := by decide
example : formatDateISO ⟨987, 12, 31⟩ = "0987-12-31" := by decide

theorem digitChar_props (k : Nat) (h : k < 10) :
    (digitChar k).toNat = 48 + k ∧ (digitChar k).isDigit = true ∧
      digitChar k ≠ '-' ∧ digitChar k ≠ '+' ∧
      isPySpace (digitChar k) = false := by
  interval_cases k <;> exact ⟨by decide, by decide, by decide, by decide, by decide⟩

theorem dropWhile_space_eq_self (l : List Char)
    (h : ∀ c ∈ l, isPySpace c = false) :
    l.dropWhile isPySpace = l := by
  cases l with
  | nil => rfl
  | cons c cs =>
    rw [List.dropWhile_cons]
    simp [h c (List.mem_cons_self c cs)]

theorem pyStrip_eq_self (l : List Char)
    (h : ∀ c ∈ l, isPySpace c = false) : pyStrip l = l := by
  unfold pyStrip
  rw [dropWhile_space_eq_self l h,
    dropWhile_space_eq_self _ (fun c hc => h c (List.mem_reverse.mp hc)),
    List.reverse_reverse]

theorem splitDash_no_dash (l : List Char) (h : ∀ c ∈ l, c ≠ '-') :
    splitDash l = [l] := by
  induction l with
  | nil => rfl
  | cons c cs ih =>
    have hcs := ih (fun x hx => h x (List.mem_cons_of_mem c hx))
    simp [splitDash, h c (List.mem_cons_self c cs), hcs]

theorem splitDash_append (l1 l2 : List Char) (h : ∀ c ∈ l1, c ≠ '-') :
    splitDash (l1 ++ '-' :: l2) = l1 :: splitDash l2 := by
  induction l1 with
  | nil => simp [splitDash]
  | cons c cs ih =>
    have hcs := ih (fun x hx => h x (List.mem_cons_of_mem c hx))
    simp [splitDash, h c (List.mem_cons_self c cs), hcs]

theorem pyInt_pad4 (n : Nat) (h : n ≤ 9999) : pyInt (pad4 n) = some n := by
  have h1 := digitChar_props (n / 1000 % 10) (Nat.mod_lt _ (by norm_num))
  have h2 := digitChar_props (n / 100 % 10) (Nat.mod_lt _ (by norm_num))
  have h3 := digitChar_props (n / 10 % 10) (Nat.mod_lt _ (by norm_num))
  have h4 := digitChar_props (n % 10) (Nat.mod_lt _ (by norm_num))
  have hstrip : pyStrip (pad4 n) = pad4 n := by
    apply pyStrip_eq_self
    intro c hc
    simp only [pad4, List.mem_cons, List.not_mem_nil, or_false] at hc
    rcases hc with hc | hc | hc | hc <;> subst hc <;> tauto
  have hne : (pad4 n).head? ≠ some '+' := by
    simp only [pad4, List.head?]
    intro hc
    exact h1.2.2.2.1 (Option.some.inj hc)
  have hall : (pad4 n).all Char.isDigit = true := by
    simp only [pad4, List.all_cons, List.all_nil, Bool.and_true]
    rw [h1.2.1, h2.2.1, h3.2.1, h4.2.1]
    rfl
  simp only [pyInt, hstrip, if_neg hne]
  rw [if_pos ⟨by simp [pad4], hall⟩]
  simp only [pad4, digitsVal, List.foldl]
  rw [h1.1, h2.1, h3.1, h4.1]
  congr 1
  omega

theorem pyInt_pad2 (n : Nat) (h : n ≤ 99) : pyInt (pad2 n) = some n := by
  have h3 := digitChar_props (n / 10 % 10) (Nat.mod_lt _ (by norm_num))
  have h4 := digitChar_props (n % 10) (Nat.mod_lt _ (by norm_num))
  have hstrip : pyStrip (pad2 n) = pad2 n := by
    apply pyStrip_eq_self
    intro c hc
    simp only [pad2, List.mem_cons, List.not_mem_nil, or_false] at hc
    rcases hc with hc | hc <;> subst hc <;> tauto
  have hne : (pad2 n).head? ≠ some '+' := by
    simp only [pad2, List.head?]
    intro hc
    exact h3.2.2.2.1 (Option.some.inj hc)
  have hall : (pad2 n).all Char.isDigit = true := by
    simp only [pad2, List.all_cons, List.all_nil, Bool.and_true]
    rw [h3.2.1, h4.2.1]
    rfl
  simp only [pyInt, hstrip, if_neg hne]
  rw [if_pos ⟨by simp [pad2], hall⟩]
  simp only [pad2, digitsVal, List.foldl]
  rw [h3.1, h4.1]
  congr 1
  omega

theorem daysInMonth_le_31 (y m : Nat) : daysInMonth y m ≤ 31 := by
  unfold daysInMonth
  split
  · split <;> omega
  · split <;> omega

theorem digitChar_mod_not_space (k : Nat) :
    isPySpace (digitChar (k % 10)) = false :=
  (digitChar_props _ (Nat.mod_lt _ (by norm_num))).2.2.2.2

theorem digitChar_mod_ne_dash (k : Nat) : digitChar (k % 10) ≠ '-' :=
  (digitChar_props _ (Nat.mod_lt _ (by norm_num))).2.2.1

/-- The `YYYY-MM-DD` rendering, character by character. -/
theorem formatDateChars_explicit (d : PyDate) :
    formatDateChars d =
      [digitChar (d.year / 1000 % 10), digitChar (d.year / 100 % 10),
       digitChar (d.year / 10 % 10), digitChar (d.year % 10), '-',
       digitChar (d.month / 10 % 10), digitChar (d.month % 10), '-',
       digitChar (d.day / 10 % 10), digitChar (d.day % 10)] := rfl

/-- C9 helper: formatting as `YYYY-MM-DD` splits back into its three
zero-padded segments. -/
theorem splitDash_format (d : PyDate) :
    splitDash (pyStrip (formatDateChars d)) =
      [pad4 d.year, pad2 d.month, pad2 d.day] := by
  have hnospace : ∀ c ∈ formatDateChars d, isPySpace c = false := by
    intro c hc
    rw [formatDateChars_explicit] at hc
    simp only [List.mem_cons, List.not_mem_nil, or_false] at hc
    rcases hc with hc | hc | hc | hc | hc | hc | hc | hc | hc | hc <;>
      subst hc <;> first | decide | exact digitChar_mod_not_space _
  have hnodash4 : ∀ c ∈ pad4 d.year, c ≠ '-' := by
    intro c hc
    simp only [pad4, List.mem_cons, List.not_mem_nil, or_false] at hc
    rcases hc with hc | hc | hc | hc <;> subst hc <;>
      exact digitChar_mod_ne_dash _
  have hnodash2m : ∀ c ∈ pad2 d.month, c ≠ '-' := by
    intro c hc
    simp only [pad2, List.mem_cons, List.not_mem_nil, or_false] at hc
    rcases hc with hc | hc <;> subst hc <;> exact digitChar_mod_ne_dash _
  have hnodash2d : ∀ c ∈ pad2 d.day, c ≠ '-' := by
    intro c hc
    simp only [pad2, List.mem_cons, List.not_mem_nil, or_false] at hc
    rcases hc with hc | hc <;> subst hc <;> exact digitChar_mod_ne_dash _
  rw [pyStrip_eq_self _ hnospace, formatDateChars,
    splitDash_append _ _ hnodash4, splitDash_append _ _ hnodash2m,
    splitDash_no_dash _ hnodash2d]

def sampleCitations : List Citation :=
  [⟨some "2024-03-15"⟩, ⟨some "2024-04-10"⟩, ⟨none⟩, ⟨some ""⟩,
   ⟨some "not-a-date"⟩]

def sampleFetch : String → Option (List Citation) :=
  fun _ => some sampleCitations

def failFetch : String → Option (List Citation) :=
  fun _ => none

/-- On a successful fetch with a nonempty DOI, the returned increase is
the difference of the two cumulative counts over the parsed dates. -/
theorem get_citation_increase_some (fetch : String → Option (List Citation))
    (doi : String) (y m : Nat) (citations : List Citation)
    (hdoi : doi ≠ "") (hfetch : fetch doi = some citations) :
    (get_citation_increase fetch doi y m).1 =
      some
        (((parsedDates citations).countP
            (fun d => d.ble (endOfLastMonth y m)) : Int) -
         ((parsedDates citations).countP
            (fun d => d.ble (endOfPrevMonth y m)) : Int)) := by
  simp only [get_citation_increase, if_neg hdoi, hfetch]
  rw [countCitations_eq]

/-- **C1.**  For every fetched citation-event list and the computed
boundary pair, `get_citation_increase` returns `endCount − startCount`,
where `endCount` counts the successfully parsed events with date ≤
`endOfLastMonth` and `startCount` those with date ≤ `endOfPreviousMonth`,
and this difference equals exactly the number of parsed events whose
date is strictly after `endOfPreviousMonth` and on/before
`endOfLastMonth`. -/
theorem C1_increase_counts (fetch : String → Option (List Citation))
    (doi : String) (y m : Nat) (citations : List Citation)
    (hdoi : doi ≠ "") (hfetch : fetch doi = some citations)
    (hy : 2 ≤ y) (hm1 : 1 ≤ m) (hm2 : m ≤ 12) :
    (get_citation_increase fetch doi y m).1 =
      some
        (((parsedDates citations).countP
            (fun d => d.ble (endOfLastMonth y m)) : Int) -
         ((parsedDates citations).countP
            (fun d => d.ble (endOfPrevMonth y m)) : Int))
    ∧ ((parsedDates citations).countP
          (fun d => d.ble (endOfLastMonth y m)) : Int) -
        ((parsedDates citations).countP
          (fun d => d.ble (endOfPrevMonth y m)) : Int) =
        ((parsedDates citations).countP
          (fun d => !d.ble (endOfPrevMonth y m) &&
            d.ble (endOfLastMonth y m)) : Int) := by
  have hL := endOfPrevMonth_ble_endOfLastMonth y m hy hm1 hm2
  have hsplit :=
    countP_ble_split (endOfPrevMonth y m) (endOfLastMonth y m) hL
      (parsedDates citations)
  constructor
  · exact get_citation_increase_some fetch doi y m citations hdoi hfetch
  · omega

/-- Witness for C1 at a concrete feed: a five-event list (one event in
the target window) evaluated at now = 2024-05. -/
theorem C1_increase_counts_witness :
    (get_citation_increase sampleFetch "10.1/x" 2024 5).1 =
      some
        (((parsedDates sampleCitations).countP
            (fun d => d.ble (endOfLastMonth 2024 5)) : Int) -
         ((parsedDates sampleCitations).countP
            (fun d => d.ble (endOfPrevMonth 2024 5)) : Int))
    ∧ ((parsedDates sampleCitations).countP
          (fun d => d.ble (endOfLastMonth 2024 5)) : Int) -
        ((parsedDates sampleCitations).countP
          (fun d => d.ble (endOfPrevMonth 2024 5)) : Int) =
        ((parsedDates sampleCitations).countP
          (fun d => !d.ble (endOfPrevMonth 2024 5) &&
            d.ble (endOfLastMonth 2024 5)) : Int) :=
  C1_increase_counts sampleFetch "10.1/x" 2024 5 sampleCitations
    (by decide) rfl (by decide) (by decide) (by decide)

/-- **C2.**  For every DOI and feed response, `get_citation_increase`
returns the distinct marker `None` when the fetch fails (network error
or malformed response, both caught in `_fetch_citations`), never fails
on any per-event parse problem — a successful fetch of any event list
always yields some integer — and the `None` marker is distinguishable
from a returned increase of `0`. -/
theorem C2_unavailable_marker (fetch : String → Option (List Citation))
    (doi : String) (y m : Nat) (hdoi : doi ≠ "") :
    (fetch doi = none → (get_citation_increase fetch doi y m).1 = none)
    ∧ (∀ citations, fetch doi = some citations →
        ∃ k : Int, (get_citation_increase fetch doi y m).1 = some k)
    ∧ (∀ k : Int,
        (get_citation_increase fetch doi y m).1 = some k →
          (get_citation_increase fetch doi y m).1 ≠ none) := by
  refine ⟨fun hf => ?_, fun citations hf => ?_, fun k hk => ?_⟩
  · simp only [get_citation_increase, if_neg hdoi, hf]
  · refine ⟨((countCitations citations (endOfLastMonth y m)
        (endOfPrevMonth y m)).1 : Int) -
      ((countCitations citations (endOfLastMonth y m)
        (endOfPrevMonth y m)).2.1 : Int), ?_⟩
    simp only [get_citation_increase, if_neg hdoi, hf]
  · simp [hk]

/-- Witness for C2: a failing fetch yields the `Unavailable` marker. -/
theorem C2_unavailable_marker_witness :
    (get_citation_increase failFetch "10.1/x" 2024 5).1 = none :=
  (C2_unavailable_marker failFetch "10.1/x" 2024 5 (by decide)).1 rfl

/-- **C10.**  Any increase the function actually returns is
non-negative: each event counted toward `start_count` is also counted
toward `end_count` (the boundaries satisfy
`endOfPrevMonth ≤ endOfLastMonth`), so the difference cannot be
negative, whatever the fetched data. -/
theorem C10_increase_nonneg (fetch : String → Option (List Citation))
    (doi : String) (y m : Nat) (k : Int)
    (hy : 2 ≤ y) (hm1 : 1 ≤ m) (hm2 : m ≤ 12)
    (h : (get_citation_increase fetch doi y m).1 = some k) : 0 ≤ k := by
  have hL := endOfPrevMonth_ble_endOfLastMonth y m hy hm1 hm2
  by_cases hdoi : doi = ""
  · simp [get_citation_increase, hdoi] at h
  · rcases hf : fetch doi with _ | citations
    · simp [get_citation_increase, hdoi, hf] at h
    · have h1 := get_citation_increase_some fetch doi y m citations
        hdoi hf
      rw [h1, Option.some_inj] at h
      have hsplit :=
        countP_ble_split (endOfPrevMonth y m) (endOfLastMonth y m) hL
          (parsedDates citations)
      omega

/-- Witness for C10: the concrete sample feed returns increase 1 ≥ 0. -/
theorem C10_increase_nonneg_witness :
    (get_citation_increase sampleFetch "10.1/x" 2024 5).1 = some 1 ∧
      (0 : Int) ≤ 1 :=
  ⟨by decide,
   C10_increase_nonneg sampleFetch "10.1/x" 2024 5 1 (by decide)
     (by decide) (by decide) (by decide)⟩

/-- **C3.**  For every evaluated work whose increase is available, an
alert record is inserted if and only if `increase > threshold`: the
strict comparison means an increase equal to the threshold does not
qualify while `threshold + 1` does. -/
theorem C3_threshold_strict (citeInc : String → Option Int) (t : Int)
    (dm : String) (arts : List Article) (a : Article) (s : String)
    (inc : Int) (ha : a ∈ arts) (h1 : a.doi = some s) (h2 : s ≠ "")
    (h3 : citeInc s = some inc) :
    mkAlert a s inc dm ∈ (detectRun citeInc t dm arts).inserts ↔
      t < inc := by
  constructor
  · intro hmem
    rcases (mem_detectRun_inserts citeInc t dm arts _).mp hmem with
      ⟨b, _, hb⟩
    have := evalArticle_insert_gt citeInc t dm b _ hb
    simpa [mkAlert] using this
  · intro ht
    refine (mem_detectRun_inserts citeInc t dm arts _).mpr ⟨a, ha, ?_⟩
    simp [evalArticle, h1, h2, h3, ht]

def sampleArticle : Article :=
  ⟨"11111", some "10.1/x", "Sample title", "Sample journal",
   "2020-01-01", some "An abstract"⟩

def sampleCiteInc : String → Option Int :=
  fun s => if s = "10.1/x" then some 6 else none

/-- Witness for C3 at threshold 5 and increase 6 = threshold + 1 (the
record is inserted), instantiating the if-and-only-if concretely. -/
theorem C3_threshold_strict_witness :
    mkAlert sampleArticle "10.1/x" 6 "2024-04" ∈
        (detectRun sampleCiteInc 5 "2024-04" [sampleArticle]).inserts ↔
      (5 : Int) < 6 :=
  C3_threshold_strict sampleCiteInc 5 "2024-04" [sampleArticle]
    sampleArticle "10.1/x" 6 (by simp) rfl (by decide) rfl

/-- **C6.**  Works lacking a document identifier are tallied under
`noDoi` and skipped with no fetch attempted (the DOIs handed to the
citation collaborator are exactly those of the works with a non-empty
DOI, in order), and `get_citation_increase` called with an empty DOI
returns the unavailable marker without issuing any network request. -/
theorem C6_no_docid_skip :
    (∀ (citeInc : String → Option Int) (t : Int) (dm : String)
        (arts : List Article),
      (detectRun citeInc t dm arts).stats.noDoi =
        arts.countP (fun a => decide (a.doi = none ∨ a.doi = some ""))
      ∧ (detectRun citeInc t dm arts).requested =
          arts.filterMap (fun a =>
            match a.doi with
            | none => none
            | some s => if s = "" then none else some s))
    ∧ ∀ (fetch : String → Option (List Citation)) (y m : Nat),
        get_citation_increase fetch "" y m = (none, []) := by
  refine ⟨fun citeInc t dm arts =>
    ⟨detectRun_noDoi citeInc t dm arts,
     detectRun_requested citeInc t dm arts⟩, fun fetch y m => ?_⟩
  simp [get_citation_increase]

/-- **C4.**  `mark_as_notified` is invoked only after a successful
dispatch: whenever `send_alert_email` reports failure for the enriched
batch, the run performs no `mark_as_notified` call at all, so applying
the run's marking to the stored rows leaves the pending set unchanged.
(Quantifying over every dispatcher, a marking can therefore only arise
from a dispatcher that returned success.) -/
theorem C4_mark_only_on_success (dryRun : Bool)
    (citeInc : String → Option Int) (t : Int) (dm : String)
    (articles : List Article) (pending : List AlertRecord)
    (summarize : String → String) (sendEmail : List AlertRecord → Bool)
    (hfail : sendEmail (enrich articles summarize pending) = false) :
    (runModel dryRun citeInc t dm articles pending summarize
        sendEmail).markedIds = none
    ∧ applyMark pending
        (runModel dryRun citeInc t dm articles pending summarize
          sendEmail).markedIds = pending := by
  unfold runModel
  by_cases hp : pending.isEmpty
  · simp [hp, applyMark]
  · by_cases hd : dryRun
    · simp [hp, hd, applyMark]
    · simp [hp, hd, hfail, applyMark]

def samplePending : List AlertRecord :=
  [⟨1, "11111", "10.1/x", "Sample title", "Sample journal", "2020-01-01",
    6, "2024-04", false, none⟩]

/-- Witness for C4: a dispatcher that always fails leaves the concrete
one-record pending batch unmarked and unchanged. -/
theorem C4_mark_only_on_success_witness :
    (runModel false sampleCiteInc 5 "2024-04" [sampleArticle]
        samplePending (fun s => s) (fun _ => false)).markedIds = none
    ∧ applyMark samplePending
        (runModel false sampleCiteInc 5 "2024-04" [sampleArticle]
          samplePending (fun s => s) (fun _ => false)).markedIds =
        samplePending :=
  C4_mark_only_on_success false sampleCiteInc 5 "2024-04" [sampleArticle]
    samplePending (fun s => s) (fun _ => false) rfl

/-- **C8.**  In dry-run mode the run performs every step except final
dispatch: the detect-phase inserts and the summarization are the same
as in a normal run, but `send_alert_email` is never called,
`mark_as_notified` is never called, and no stored record's `notified`
flag changes. -/
theorem C8_dry_run_frame (citeInc : String → Option Int) (t : Int)
    (dm : String) (articles : List Article) (pending : List AlertRecord)
    (summarize : String → String) (sendEmail : List AlertRecord → Bool) :
    (runModel true citeInc t dm articles pending summarize
        sendEmail).emailCalled = false
    ∧ (runModel true citeInc t dm articles pending summarize
        sendEmail).markedIds = none
    ∧ applyMark pending
        (runModel true citeInc t dm articles pending summarize
          sendEmail).markedIds = pending
    ∧ (runModel true citeInc t dm articles pending summarize
        sendEmail).inserts =
      (runModel false citeInc t dm articles pending summarize
        sendEmail).inserts
    ∧ (runModel true citeInc t dm articles pending summarize
        sendEmail).enriched =
      (runModel false citeInc t dm articles pending summarize
        sendEmail).enriched := by
  unfold runModel
  by_cases hp : pending.isEmpty
  · simp [hp, applyMark]
  · by_cases hs : sendEmail (enrich articles summarize pending) <;>
      simp [hp, hs, applyMark]

theorem mkDate_eq_some (y m dd : Nat) (d : PyDate) :
    mkDate y m dd = some d ↔
      validDate y m dd = true ∧ d = ⟨y, m, dd⟩ := by
  unfold mkDate
  by_cases h : validDate y m dd = true
  · simp [h, eq_comm]
  · simp [h]

/-- **C5.**  `_parse_creation_date` is total and classifies every input
string into exactly one of the four documented shapes: it returns a
date precisely when the stripped input splits on `-` into three integer
segments (that exact date), two integer segments (that year-month with
day 1), or one integer segment (that year with month 1, day 1), each
passing the calendar-range check; every other input — zero or more
than three segments, a non-integer segment, or an out-of-range calendar
value — yields `None`. -/
theorem C5_parse_classification (s : String) (d : PyDate) :
    parseCreationDate s = some d ↔
      s.data ≠ [] ∧
        ((∃ a b c, splitDash (pyStrip s.data) = [a, b, c] ∧
            pyInt a = some d.year ∧ pyInt b = some d.month ∧
            pyInt c = some d.day ∧
            validDate d.year d.month d.day = true)
        ∨ (∃ a b, splitDash (pyStrip s.data) = [a, b] ∧
            pyInt a = some d.year ∧ pyInt b = some d.month ∧
            d.day = 1 ∧ validDate d.year d.month 1 = true)
        ∨ (∃ a, splitDash (pyStrip s.data) = [a] ∧
            pyInt a = some d.year ∧ d.month = 1 ∧ d.day = 1 ∧
            validDate d.year 1 1 = true)) := by
  unfold parseCreationDate parseCreationChars
  by_cases hs : s.data = []
  · simp [hs]
  · rw [if_neg hs]
    simp only [hs, ne_eq, not_false_eq_true, true_and]
    rcases hL : splitDash (pyStrip s.data) with _ | ⟨a, rest⟩
    · simp
    · rcases rest with _ | ⟨b, rest2⟩
      · constructor
        · intro hbind
          rw [Option.bind_eq_some] at hbind
          rcases hbind with ⟨y, hy, hmk⟩
          rcases (mkDate_eq_some y 1 1 d).mp hmk with ⟨hv, hd⟩
          subst hd
          right; right
          exact ⟨a, rfl, hy, rfl, rfl, hv⟩
        · intro hr
          rcases hr with ⟨x, y2, z2, hshape, -⟩ | ⟨x, y2, hshape, -⟩ |
            ⟨x, hshape, hx, hm, hd, hv⟩
          · simp at hshape
          · simp at hshape
          · obtain rfl : a = x := by simpa using hshape
            rw [Option.bind_eq_some]
            refine ⟨d.year, hx,
              (mkDate_eq_some d.year 1 1 d).mpr ⟨hv, ?_⟩⟩
            rcases d with ⟨dy, dmo, dda⟩
            simp only at hm hd
            rw [hm, hd]
      · rcases rest2 with _ | ⟨c, rest3⟩
        · constructor
          · intro hbind
            rw [Option.bind_eq_some] at hbind
            rcases hbind with ⟨y, hy, hrest⟩
            rw [Option.bind_eq_some] at hrest
            rcases hrest with ⟨mo, hmo, hmk⟩
            rcases (mkDate_eq_some y mo 1 d).mp hmk with ⟨hv, hd⟩
            subst hd
            right; left
            exact ⟨a, b, rfl, hy, hmo, rfl, hv⟩
          · intro hr
            rcases hr with ⟨x, y2, z2, hshape, -⟩ |
              ⟨x, y2, hshape, hx, hy2, hd, hv⟩ | ⟨x, hshape, -⟩
            · simp at hshape
            · obtain ⟨rfl, rfl⟩ : a = x ∧ b = y2 := by
                simpa using hshape
              rw [Option.bind_eq_some]
              refine ⟨d.year, hx, ?_⟩
              rw [Option.bind_eq_some]
              refine ⟨d.month, hy2,
                (mkDate_eq_some d.year d.month 1 d).mpr ⟨hv, ?_⟩⟩
              rcases d with ⟨dy, dmo, dda⟩
              simp only at hd
              rw [hd]
            · simp at hshape
        · rcases rest3 with _ | ⟨e, rest4⟩
          · constructor
            · intro hbind
              rw [Option.bind_eq_some] at hbind
              rcases hbind with ⟨y, hy, hrest⟩
              rw [Option.bind_eq_some] at hrest
              rcases hrest with ⟨mo, hmo, hrest2⟩
              rw [Option.bind_eq_some] at hrest2
              rcases hrest2 with ⟨dd, hdd, hmk⟩
              rcases (mkDate_eq_some y mo dd d).mp hmk with ⟨hv, hd⟩
              subst hd
              left
              exact ⟨a, b, c, rfl, hy, hmo, hdd, hv⟩
            · intro hr
              rcases hr with ⟨x, y2, z2, hshape, hx, hy2, hz2, hv⟩ |
                ⟨x, y2, hshape, -⟩ | ⟨x, hshape, -⟩
              · obtain ⟨rfl, rfl, rfl⟩ : a = x ∧ b = y2 ∧ c = z2 := by
                  simpa using hshape
                rw [Option.bind_eq_some]
                refine ⟨d.year, hx, ?_⟩
                rw [Option.bind_eq_some]
                refine ⟨d.month, hy2, ?_⟩
                rw [Option.bind_eq_some]
                refine ⟨d.day, hz2,
                  (mkDate_eq_some d.year d.month d.day d).mpr
                    ⟨hv, ?_⟩⟩
                rcases d with ⟨dy, dmo, dda⟩
                rfl
              · simp at hshape
              · simp at hshape
          · simp

/-- **C9.**  Round-trip: formatting any valid calendar date as
`YYYY-MM-DD` and parsing the string back through
`_parse_creation_date` returns exactly that date. -/
theorem C9_roundtrip (d : PyDate)
    (h : validDate d.year d.month d.day = true) :
    parseCreationDate (formatDateISO d) = some d := by
  have h31 := daysInMonth_le_31 d.year d.month
  have hcopy := h
  simp only [validDate, Bool.and_eq_true, decide_eq_true_eq] at hcopy
  have hy2 : d.year ≤ 9999 := by omega
  have hmo : d.month ≤ 99 := by omega
  have hdd : d.day ≤ 99 := by omega
  have hne : ¬formatDateChars d = [] := by
    rw [formatDateChars_explicit]
    simp
  have hstart : parseCreationDate (formatDateISO d) =
      parseCreationChars (formatDateChars d) := rfl
  rw [hstart]
  unfold parseCreationChars
  rw [if_neg hne, splitDash_format]
  show ((pyInt (pad4 d.year)).bind fun y =>
      (pyInt (pad2 d.month)).bind fun mo =>
        (pyInt (pad2 d.day)).bind fun dd => mkDate y mo dd) = some d
  rw [pyInt_pad4 d.year hy2, pyInt_pad2 d.month hmo,
    pyInt_pad2 d.day hdd]
  simp only [Option.some_bind]
  exact (mkDate_eq_some d.year d.month d.day d).mpr
    ⟨h, by rcases d with ⟨dy, dmo, dda⟩; rfl⟩

/-- Witness for C9 at the concrete leap date 2024-02-29. -/
theorem C9_roundtrip_witness :
    validDate 2024 2 29 = true ∧
      parseCreationDate (formatDateISO ⟨2024, 2, 29⟩) =
        some ⟨2024, 2, 29⟩ :=
  ⟨by decide, C9_roundtrip ⟨2024, 2, 29⟩ (by decide)⟩

/-- **C7 (amended).**  The boundary pair is recomputed from
`datetime.now()` inside each `get_citation_increase` call; when every
call of a run observes the same calendar month — the normal case — all
works are classified against one and the same boundary pair, and the
run's `detectedMonth` is exactly the year-month of `endOfLastMonth`. -/
theorem C7_boundary_per_call (fetch : String → Option (List Citation))
    (y m : Nat) (t : Int) (dm : String) (arts : List Article) (k : Nat) :
    ((detectClocked fetch (fun _ => (y, m)) t dm arts
          k).boundaries).all
        (fun bp =>
          decide (bp = (endOfLastMonth y m, endOfPrevMonth y m))) = true
    ∧ detectedMonthPair y m =
        ((endOfLastMonth y m).year, (endOfLastMonth y m).month) := by
  constructor
  · induction arts generalizing k with
    | nil => simp [detectClocked]
    | cons a rest ih =>
      rcases hd : a.doi with _ | s
      · simp only [detectClocked, hd]
        exact ih k
      · by_cases hs2 : s = ""
        · simp only [detectClocked, hd, if_pos hs2]
          exact ih k
        · rcases hf : fetch s with _ | cits <;>
            simp [detectClocked, hd, hs2, hf, get_citation_increase,
              ih (k + 1)]
  · unfold detectedMonthPair endOfLastMonth
    by_cases hm : m = 1 <;> simp [hm]

def cexFetch : String → Option (List Citation) :=
  fun _ => some [⟨some "2024-03-15"⟩]

def cexClock : Nat → Nat × Nat :=
  fun k => if k = 0 then (2024, 4) else (2024, 5)

def cexArticle1 : Article :=
  ⟨"1", some "10.1/a", "T1", "J", "2020-01-01", none⟩

def cexArticle2 : Article :=
  ⟨"2", some "10.1/b", "T2", "J", "2020-01-01", none⟩

/-- **C7 (counterexample).**  A run whose two fetches straddle a month
boundary (the clock reads 2024-04 for the first call and 2024-05 for the
second): the two works are classified against two different boundary
pairs, and the same single-event feed yields an insert for the first
work but not for the second — refuting "computed once per run, so every
work is classified against the same two boundary dates". -/
theorem C7_counterexample :
    (detectClocked cexFetch cexClock 0 "2024-03"
        [cexArticle1, cexArticle2] 0).boundaries =
      [(⟨2024, 3, 31⟩, ⟨2024, 2, 29⟩), (⟨2024, 4, 30⟩, ⟨2024, 3, 31⟩)]
    ∧ ¬(∀ p ∈ (detectClocked cexFetch cexClock 0 "2024-03"
          [cexArticle1, cexArticle2] 0).boundaries,
        ∀ q ∈ (detectClocked cexFetch cexClock 0 "2024-03"
          [cexArticle1, cexArticle2] 0).boundaries, p = q)
    ∧ (detectClocked cexFetch cexClock 0 "2024-03"
        [cexArticle1, cexArticle2] 0).inserts =
      [mkAlert cexArticle1 "10.1/a" 1 "2024-03"] := by
  refine ⟨by decide, ?_, by decide⟩
  intro hall
  have h1 := hall (⟨2024, 3, 31⟩, ⟨2024, 2, 29⟩) (by decide)
    (⟨2024, 4, 30⟩, ⟨2024, 3, 31⟩) (by decide)
  simp at h1
